import Mathlib

/-!
Verification development for the "Central de Peças" Mamdani fuzzy inference
system (src/CentralPecas.py).

The repository source defines the linguistic variables, their membership
terms, the five fuzzy rules, the error guard `safe_compute`, and the final
chart that reads the computed output.  The inference engine itself
(membership evaluation `fuzz.trapmf`/`fuzz.trimf`, antecedent strength,
Mamdani clipping, max aggregation, centroid defuzzification) is supplied by
the `skfuzzy` library and is not part of the source tree; those operations
are modelled from the specification.  Machine floats are idealised as exact
rationals.
-/

/-- Modelled from the spec: the triangular membership evaluator
(`fuzz.trimf`, not in the source tree).  Degree 1 exactly at the peak `b`,
linear ramp up on `(a, b)`, linear ramp down on `(b, c)`, zero elsewhere.
Degenerate equal breakpoints skip the corresponding ramp (a step), so no
division by a zero width ever happens on a taken branch. -/
def trimf (a b c x : ℚ) : ℚ :=
  if x = b then 1
  else if a < x ∧ x < b then (x - a) / (b - a)
  else if b < x ∧ x < c then (c - x) / (c - b)
  else 0

/-- Modelled from the spec: the trapezoidal membership evaluator
(`fuzz.trapmf`, not in the source tree).  Zero outside `[a, d]`, linear ramp
up on `[a, b]`, plateau 1 on `[b, c]`, linear ramp down on `[c, d]`; the
ramps are the degenerate triangles `trimf a b b` and `trimf c c d`. -/
def trapmf (a b c d x : ℚ) : ℚ :=
  if x < a ∨ d < x then 0
  else if x ≤ b then trimf a b b x
  else if c ≤ x then trimf c c d x
  else 1

/-- A membership function: tagged trapezoid/triangle shape with its
breakpoints, as built by `fuzz.trapmf`/`fuzz.trimf` in the source. -/
inductive MF where
  | trap : ℚ → ℚ → ℚ → ℚ → MF
  | tri : ℚ → ℚ → ℚ → MF

/-- Evaluate a membership function at a crisp point. -/
def MF.evaluate : MF → ℚ → ℚ
  | .trap a b c d, x => trapmf a b c d x
  | .tri a b c, x => trimf a b c x

/-- Left end of the support interval (`a`). -/
def MF.supportLo : MF → ℚ
  | .trap a _ _ _ => a
  | .tri a _ _ => a

/-- Right end of the support interval (`d` for a trapezoid, `c` for a
triangle). -/
def MF.supportHi : MF → ℚ
  | .trap _ _ _ d => d
  | .tri _ _ c => c

/-- `tempo_espera` term `muito_pequeno = trapmf [0, 0, 10, 30]`
(CentralPecas.py line 22). -/
def m_muito_pequeno : MF := MF.trap 0 0 10 30

/-- `tempo_espera` term `pequeno = trimf [10, 30, 50]` (line 23). -/
def m_pequeno : MF := MF.tri 10 30 50

/-- `tempo_espera` term `medio = trimf [40, 60, 90]` (line 24). -/
def m_medio : MF := MF.tri 40 60 90

/-- `tempo_espera` term `grande = trapmf [80, 100, 120, 120]` (line 25). -/
def m_grande : MF := MF.trap 80 100 120 120

/-- `fator_utilizacao` term `baixo = trapmf [0, 0, 0.2, 0.4]` (line 29). -/
def p_baixo : MF := MF.trap 0 0 (2/10) (4/10)

/-- `fator_utilizacao` term `medio = trimf [0.3, 0.5, 0.7]` (line 30). -/
def p_medio : MF := MF.tri (3/10) (5/10) (7/10)

/-- `fator_utilizacao` term `alto = trapmf [0.6, 0.8, 1, 1]` (line 31). -/
def p_alto : MF := MF.trap (6/10) (8/10) 1 1

/-- `numero_funcionarios` term `pequeno = trapmf [0, 0, 20, 40]` (line 35). -/
def s_pequeno : MF := MF.trap 0 0 20 40

/-- `numero_funcionarios` term `medio = trimf [30, 50, 70]` (line 36). -/
def s_medio : MF := MF.tri 30 50 70

/-- `numero_funcionarios` term `grande = trapmf [60, 80, 100, 100]`
(line 37). -/
def s_grande : MF := MF.trap 60 80 100 100

/-- `numero_pecas` term `muito_pequeno = trapmf [0, 0, 50, 150]` (line 41). -/
def n_muito_pequeno : MF := MF.trap 0 0 50 150

/-- `numero_pecas` term `pequeno = trimf [50, 150, 250]` (line 42). -/
def n_pequeno : MF := MF.tri 50 150 250

/-- `numero_pecas` term `pouco_pequeno = trimf [125, 175, 225]` (line 43). -/
def n_pouco_pequeno : MF := MF.tri 125 175 225

/-- `numero_pecas` term `medio = trimf [150, 250, 350]` (line 44). -/
def n_medio : MF := MF.tri 150 250 350

/-- `numero_pecas` term `pouco_grande = trimf [275, 325, 375]` (line 45). -/
def n_pouco_grande : MF := MF.tri 275 325 375

/-- `numero_pecas` term `grande = trimf [300, 400, 500]` (line 46). -/
def n_grande : MF := MF.tri 300 400 500

/-- `numero_pecas` term `muito_grande = trapmf [350, 450, 500, 500]`
(line 47). -/
def n_muito_grande : MF := MF.trap 350 450 500 500

/-- All seventeen membership functions defined by the source. -/
def systemMFs : List MF :=
  [m_muito_pequeno, m_pequeno, m_medio, m_grande,
   p_baixo, p_medio, p_alto,
   s_pequeno, s_medio, s_grande,
   n_muito_pequeno, n_pequeno, n_pouco_pequeno, n_medio,
   n_pouco_grande, n_grande, n_muito_grande]

/-- The membership functions of the system with equal adjacent breakpoints
(`c = d`): zero-width falling ramps, i.e. steps. -/
def degenerateStepMFs : List MF := [m_grande, p_alto, s_grande, n_muito_grande]

/-- Universe of `tempo_espera`: `np.arange(0, 121, 1)` (line 21). -/
def mUniverse : List ℚ := (List.range 121).map (fun i : ℕ => (i : ℚ))

/-- Universe of `fator_utilizacao`: `np.arange(0, 1.2, 0.001)` (line 28),
idealised to the exact grid `i / 1000` for `i < 1200`. -/
def pUniverse : List ℚ := (List.range 1200).map (fun i => (i : ℚ) / 1000)

/-- Universe of `numero_funcionarios`: `np.arange(0, 101, 1)` (line 34). -/
def sUniverse : List ℚ := (List.range 101).map (fun i : ℕ => (i : ℚ))

/-- Universe of the output `numero_pecas`: `np.arange(0, 501, 1)`
(line 40). -/
def nUniverse : List ℚ := (List.range 501).map (fun i : ℕ => (i : ℚ))

/-- The variable names of the system, as a build-time-validated registry
(the source keys inputs and outputs by these exact strings). -/
inductive VarName where
  | tempo_espera | fator_utilizacao | numero_funcionarios | numero_pecas
  | wait | staff | parts
deriving DecidableEq, BEq

/-- Modelled from the spec: the antecedent expression tree built by the
overloaded `&`/`|` operators of `skfuzzy.control` (not in the source tree).
A leaf names an input variable and carries that term's membership
function. -/
inductive AntecedentExpression where
  | termRef : VarName → MF → AntecedentExpression
  | and : AntecedentExpression → AntecedentExpression → AntecedentExpression
  | or : AntecedentExpression → AntecedentExpression → AntecedentExpression

/-- Modelled from the spec: antecedent strength against the crisp inputs.
A term reference fuzzifies the bound input through its membership function;
`and` is Mamdani minimum, `or` is maximum. -/
def AntecedentExpression.strength : AntecedentExpression → (VarName → ℚ) → ℚ
  | .termRef v mf, inputs => mf.evaluate (inputs v)
  | .and l r, inputs => min (l.strength inputs) (r.strength inputs)
  | .or l r, inputs => max (l.strength inputs) (r.strength inputs)

/-- A fuzzy rule: antecedent expression, consequent output variable and
term, and weight (`ctrl.Rule` leaves the weight at 1 in the source). -/
structure Rule where
  antecedent : AntecedentExpression
  consequentVar : VarName
  consequentMF : MF
  weight : ℚ

/-- The single computation failure of the engine: the aggregated fuzzy set
of an output variable has zero total area, so the centroid is undefined. -/
inductive ComputationError where
  | zeroArea : ComputationError

/-- Modelled from the spec: firing strength of a rule — antecedent strength
times the rule weight, clamped to `[0, 1]`. -/
def fireStrength (inputs : VarName → ℚ) (r : Rule) : ℚ :=
  min 1 (max 0 (r.antecedent.strength inputs * r.weight))

/-- Modelled from the spec: Mamdani implication — the clipped output fuzzy
set of a rule is the pointwise minimum of the firing strength and the
consequent term. -/
def clip (inputs : VarName → ℚ) (r : Rule) (y : ℚ) : ℚ :=
  min (fireStrength inputs r) (r.consequentMF.evaluate y)

/-- Modelled from the spec: aggregation for one output variable — the
pointwise maximum of the clipped output sets of every rule whose consequent
targets that variable. -/
def aggregate (rules : List Rule) (v : VarName) (inputs : VarName → ℚ)
    (y : ℚ) : ℚ :=
  ((rules.filter fun r => r.consequentVar == v).map
    fun r => clip inputs r y).foldr max 0

/-- Modelled from the spec: centroid defuzzification over the discretized
universe, `Σ y·μ(y) / Σ μ(y)`; a zero denominator is a `ComputationError`,
never a defaulted number. -/
def defuzzify (uni : List ℚ) (mu : ℚ → ℚ) : Except ComputationError ℚ :=
  if (uni.map mu).sum = 0 then Except.error ComputationError.zeroArea
  else Except.ok ((uni.map fun y => y * mu y).sum / (uni.map mu).sum)

/-- Modelled from the spec: compute one output variable — aggregate the
rules targeting it and defuzzify over its universe. -/
def computeVar (rules : List Rule) (uni : List ℚ) (v : VarName)
    (inputs : VarName → ℚ) : Except ComputationError ℚ :=
  defuzzify uni (aggregate rules v inputs)

/-- `rule1 = ctrl.Rule(m['muito_pequeno'] & s['pequeno'],
n['muito_grande'])` (line 50). -/
def rule1 : Rule :=
  { antecedent := .and (.termRef .tempo_espera m_muito_pequeno)
      (.termRef .numero_funcionarios s_pequeno)
    consequentVar := .numero_pecas, consequentMF := n_muito_grande
    weight := 1 }

/-- `rule2 = ctrl.Rule(m['pequeno'] & s['grande'], n['pequeno'])`
(line 51). -/
def rule2 : Rule :=
  { antecedent := .and (.termRef .tempo_espera m_pequeno)
      (.termRef .numero_funcionarios s_grande)
    consequentVar := .numero_pecas, consequentMF := n_pequeno
    weight := 1 }

/-- `rule3 = ctrl.Rule(p['baixo'], n['pequeno'])` (line 52). -/
def rule3 : Rule :=
  { antecedent := .termRef .fator_utilizacao p_baixo
    consequentVar := .numero_pecas, consequentMF := n_pequeno
    weight := 1 }

/-- `rule4 = ctrl.Rule(p['alto'], n['grande'])` (line 53). -/
def rule4 : Rule :=
  { antecedent := .termRef .fator_utilizacao p_alto
    consequentVar := .numero_pecas, consequentMF := n_grande
    weight := 1 }

/-- `rule5 = ctrl.Rule(m['grande'], n['muito_grande'])` (line 54). -/
def rule5 : Rule :=
  { antecedent := .termRef .tempo_espera m_grande
    consequentVar := .numero_pecas, consequentMF := n_muito_grande
    weight := 1 }

/-- `system = ctrl.ControlSystem([rule1, rule2, rule3, rule4, rule5])`
(line 57). -/
def systemRules : List Rule := [rule1, rule2, rule3, rule4, rule5]

/-- The crisp input binding of lines 69–71: the three slider values keyed by
variable name.  No validation against the universe bounds is performed. -/
def inputsOf (te fu nf : ℚ) : VarName → ℚ := fun v =>
  match v with
  | .tempo_espera => te
  | .fator_utilizacao => fu
  | .numero_funcionarios => nf
  | _ => 0

/-- The full run of the source's simulation for its only output variable
`numero_pecas`, from the three crisp slider inputs. -/
def computeNumeroPecas (te fu nf : ℚ) : Except ComputationError ℚ :=
  computeVar systemRules nUniverse .numero_pecas (inputsOf te fu nf)

/-- `safe_compute` (lines 11–17): run the computation, return `true` on
success and `false` on any computation error. -/
def safeCompute (te fu nf : ℚ) : Bool :=
  match computeNumeroPecas te fu nf with
  | Except.ok _ => true
  | Except.error _ => false

/-- `sim.output["numero_pecas"]` as it stands after `compute`: present only
when the computation succeeded. -/
def simOutputNumeroPecas (te fu nf : ℚ) : Option ℚ :=
  (computeNumeroPecas te fu nf).toOption

/-- The unguarded dictionary access `sim.output["numero_pecas"]` performed
by the final chart call (line 141): a missing key is a failure, not a
rendered chart. -/
def chartOutputRead (o : Option ℚ) : Except ComputationError ℚ :=
  match o with
  | some v => Except.ok v
  | none => Except.error ComputationError.zeroArea

/-- Spec scenario 1: `wait` term `very_small = trapezoid(0, 0, 10, 30)`. -/
def waitVerySmall : MF := MF.trap 0 0 10 30

/-- Spec scenario 1: `staff` term `small = trapezoid(0, 0, 20, 40)`. -/
def staffSmall : MF := MF.trap 0 0 20 40

/-- Spec scenario 1: `parts` term
`very_large = trapezoid(350, 450, 500, 500)`. -/
def partsVeryLarge : MF := MF.trap 350 450 500 500

/-- Spec scenario 1: universe of `parts`, `[0, 500]` with step 1. -/
def partsUniverse : List ℚ := (List.range 501).map (fun i : ℕ => (i : ℚ))

/-- Spec scenario 1: the single rule
`wait.very_small AND staff.small → parts.very_large`. -/
def scenarioRule : Rule :=
  { antecedent := .and (.termRef .wait waitVerySmall)
      (.termRef .staff staffSmall)
    consequentVar := .parts, consequentMF := partsVeryLarge
    weight := 1 }

/-- Spec scenario 1: crisp inputs for the two-input one-rule system. -/
def scenarioInputs (w st : ℚ) : VarName → ℚ := fun v =>
  match v with
  | .wait => w
  | .staff => st
  | _ => 0

/-- Spec scenario 1: compute the `parts` output. -/
def scenarioComputeParts (w st : ℚ) : Except ComputationError ℚ :=
  computeVar [scenarioRule] partsUniverse .parts (scenarioInputs w st)

/-- Integer profile (in hundredths) of `trapmf 350 450 500 500` on the
integer grid `0..500`: the bridge used to evaluate the centroid sums in ℕ. -/
def scenMu (i : ℕ) : ℕ :=
  if i ≤ 350 then 0 else if i ≤ 450 then i - 350
  else if i ≤ 500 then 100 else 0

/-- Integer profile (in hundredths) of `trimf 50 150 250` on the integer
grid `0..500`. -/
def triMu (i : ℕ) : ℕ :=
  if i ≤ 50 then 0 else if i ≤ 150 then i - 50
  else if i < 250 then 250 - i else 0

/-- Every triangular membership degree is nonnegative. -/
theorem trimf_nonneg (a b c x : ℚ) : 0 ≤ trimf a b c x := by
  unfold trimf
  split_ifs with h1 h2 h3
  · norm_num
  · have hba : 0 < b - a := by linarith [h2.1, h2.2]
    have hxa : 0 ≤ x - a := by linarith [h2.1]
    positivity
  · have hcb : 0 < c - b := by linarith [h3.1, h3.2]
    have hcx : 0 ≤ c - x := by linarith [h3.2]
    positivity
  · exact le_refl 0

/-- Every triangular membership degree is at most 1. -/
theorem trimf_le_one (a b c x : ℚ) : trimf a b c x ≤ 1 := by
  unfold trimf
  split_ifs with h1 h2 h3
  · exact le_refl 1
  · have hba : 0 < b - a := by linarith [h2.1, h2.2]
    rw [div_le_one hba]
    linarith [h2.2]
  · have hcb : 0 < c - b := by linarith [h3.1, h3.2]
    rw [div_le_one hcb]
    linarith [h3.1]
  · norm_num

/-- Every trapezoidal membership degree is nonnegative. -/
theorem trapmf_nonneg (a b c d x : ℚ) : 0 ≤ trapmf a b c d x := by
  unfold trapmf
  split_ifs with h1 h2 h3
  · norm_num
  · exact trimf_nonneg a b b x
  · exact trimf_nonneg c c d x
  · norm_num

/-- Every trapezoidal membership degree is at most 1. -/
theorem trapmf_le_one (a b c d x : ℚ) : trapmf a b c d x ≤ 1 := by
  unfold trapmf
  split_ifs with h1 h2 h3
  · norm_num
  · exact trimf_le_one a b b x
  · exact trimf_le_one c c d x
  · norm_num

/-- Every membership function of the model stays in `[0, 1]`. -/
theorem mf_evaluate_mem (mf : MF) (x : ℚ) :
    0 ≤ mf.evaluate x ∧ mf.evaluate x ≤ 1 := by
  cases mf with
  | trap a b c d =>
      exact ⟨trapmf_nonneg a b c d x, trapmf_le_one a b c d x⟩
  | tri a b c =>
      exact ⟨trimf_nonneg a b c x, trimf_le_one a b c x⟩

/-- A trapezoid vanishes strictly outside `[a, d]`, with no ordering
assumptions on the breakpoints. -/
theorem trapmf_eq_zero_outside (a b c d x : ℚ) (h : x < a ∨ d < x) :
    trapmf a b c d x = 0 := by
  unfold trapmf
  rw [if_pos h]

/-- A weakly ordered triangle vanishes strictly outside `[a, c]`. -/
theorem trimf_eq_zero_outside (a b c x : ℚ) (hab : a ≤ b) (hbc : b ≤ c)
    (h : x < a ∨ c < x) : trimf a b c x = 0 := by
  unfold trimf
  rcases h with h | h
  · rw [if_neg, if_neg, if_neg]
    · rintro ⟨h1, h2⟩; linarith
    · rintro ⟨h1, h2⟩; linarith
    · intro he; rw [he] at h; linarith
  · rw [if_neg, if_neg, if_neg]
    · rintro ⟨h1, h2⟩; linarith
    · rintro ⟨h1, h2⟩; linarith
    · intro he; rw [he] at h; linarith

/-- A clipped membership degree is nonnegative. -/
theorem clip_nonneg (inputs : VarName → ℚ) (r : Rule) (y : ℚ) :
    0 ≤ clip inputs r y := by
  unfold clip fireStrength
  refine le_min (le_min ?_ ?_) (mf_evaluate_mem r.consequentMF y).1
  · norm_num
  · exact le_max_left 0 _

/-- A clipped membership degree is at most the firing strength. -/
theorem clip_le_fireStrength (inputs : VarName → ℚ) (r : Rule) (y : ℚ) :
    clip inputs r y ≤ fireStrength inputs r :=
  min_le_left _ _

/-- The fold computing a pointwise maximum of clipped sets is nonnegative. -/
theorem foldr_max_nonneg (l : List ℚ) : 0 ≤ l.foldr max 0 := by
  induction l with
  | nil => exact le_refl 0
  | cons a t ih => exact le_trans ih (le_max_right a _)

/-- Every element of a list is bounded by its max-fold. -/
theorem le_foldr_max (l : List ℚ) (a : ℚ) (ha : a ∈ l) :
    a ≤ l.foldr max 0 := by
  induction l with
  | nil => cases ha
  | cons b t ih =>
      rcases List.mem_cons.mp ha with h | h
      · rw [h]; exact le_max_left b _
      · exact le_trans (ih h) (le_max_right b _)

/-- The aggregated fuzzy set is nonnegative at every point. -/
theorem aggregate_nonneg (rules : List Rule) (v : VarName)
    (inputs : VarName → ℚ) (y : ℚ) : 0 ≤ aggregate rules v inputs y :=
  foldr_max_nonneg _

/-- Summing the zero function over any sampling list gives zero. -/
theorem sum_map_zero_fn {α : Type} (l : List α) :
    (l.map fun _ => (0 : ℚ)).sum = 0 := by
  induction l with
  | nil => rfl
  | cons a t ih => simp [ih]

/-- A list of nonnegative rationals with a positive member has positive
sum. -/
theorem sum_pos_of_mem (l : List ℚ) (hnn : ∀ b ∈ l, 0 ≤ b) (a : ℚ)
    (ha : a ∈ l) (hpos : 0 < a) : 0 < l.sum := by
  induction l with
  | nil => cases ha
  | cons b t ih =>
      rw [List.sum_cons]
      rcases List.mem_cons.mp ha with h | h
      · have ht : 0 ≤ t.sum :=
          List.sum_nonneg (fun x hx => hnn x (List.mem_cons_of_mem b hx))
        rw [← h]; linarith
      · have hb : 0 ≤ b := hnn b (List.mem_cons_self b t)
        have := ih (fun x hx => hnn x (List.mem_cons_of_mem b hx)) h
        linarith

/-- Dividing each summand by a constant divides the sum. -/
theorem sum_map_div {α : Type} (l : List α) (g : α → ℚ) (c : ℚ) :
    (l.map fun a => g a / c).sum = (l.map g).sum / c := by
  induction l with
  | nil => simp
  | cons a t ih => simp [ih, add_div]

/-- Centroid defuzzification fails exactly when the aggregated set sums to
zero over the discretized universe. -/
theorem defuzzify_error_iff (uni : List ℚ) (mu : ℚ → ℚ) :
    defuzzify uni mu = Except.error ComputationError.zeroArea ↔
      (uni.map mu).sum = 0 := by
  unfold defuzzify
  split_ifs with h
  · simp [h]
  · simp [h]

/-- On success, centroid defuzzification returns the ratio of the weighted
sum to the total membership sum. -/
theorem defuzzify_ok (uni : List ℚ) (mu : ℚ → ℚ)
    (h : (uni.map mu).sum ≠ 0) :
    defuzzify uni mu =
      Except.ok ((uni.map fun y => y * mu y).sum / (uni.map mu).sum) := by
  unfold defuzzify
  rw [if_neg h]

/-- Every rule of the source system targets the output `numero_pecas`, so
the aggregation filter keeps all five rules. -/
theorem filter_systemRules :
    systemRules.filter (fun r => r.consequentVar == VarName.numero_pecas) =
      systemRules := rfl

/-- The aggregated set for `numero_pecas` is the pointwise maximum of the
five rules' clipped output sets. -/
theorem aggregate_numeroPecas_eq (inputs : VarName → ℚ) (y : ℚ) :
    aggregate systemRules .numero_pecas inputs y =
      max (max (max (max (clip inputs rule1 y) (clip inputs rule2 y))
        (clip inputs rule3 y)) (clip inputs rule4 y))
        (clip inputs rule5 y) := by
  unfold aggregate
  rw [filter_systemRules]
  show (systemRules.map fun r => clip inputs r y).foldr max 0 = _
  simp only [systemRules, List.map_cons, List.map_nil, List.foldr_cons,
    List.foldr_nil]
  rw [max_eq_left (clip_nonneg inputs rule5 y)]
  simp only [max_assoc]

/-- A firing strength is always nonnegative. -/
theorem fireStrength_nonneg (inputs : VarName → ℚ) (r : Rule) :
    0 ≤ fireStrength inputs r :=
  le_min (by norm_num) (le_max_left 0 _)

/-- A firing strength is always at most 1. -/
theorem fireStrength_le_one (inputs : VarName → ℚ) (r : Rule) :
    fireStrength inputs r ≤ 1 :=
  min_le_left 1 _

/-- A rule firing with strength zero contributes a clipped set that is zero
everywhere. -/
theorem clip_eq_zero (inputs : VarName → ℚ) (r : Rule)
    (h : fireStrength inputs r = 0) (y : ℚ) : clip inputs r y = 0 := by
  unfold clip
  rw [h]
  exact min_eq_left (mf_evaluate_mem r.consequentMF y).1

/-- Where the consequent term is at full degree, the clipped set equals the
firing strength. -/
theorem clip_eq_fireStrength (inputs : VarName → ℚ) (r : Rule) (y : ℚ)
    (h : r.consequentMF.evaluate y = 1) :
    clip inputs r y = fireStrength inputs r := by
  unfold clip
  rw [h]
  exact min_eq_left (fireStrength_le_one inputs r)

/-- If all five rules fire with strength zero, the aggregated set for
`numero_pecas` is identically zero. -/
theorem aggregate_numeroPecas_zero (inputs : VarName → ℚ)
    (h1 : fireStrength inputs rule1 = 0) (h2 : fireStrength inputs rule2 = 0)
    (h3 : fireStrength inputs rule3 = 0) (h4 : fireStrength inputs rule4 = 0)
    (h5 : fireStrength inputs rule5 = 0) (y : ℚ) :
    aggregate systemRules .numero_pecas inputs y = 0 := by
  rw [aggregate_numeroPecas_eq, clip_eq_zero inputs rule1 h1 y,
    clip_eq_zero inputs rule2 h2 y, clip_eq_zero inputs rule3 h3 y,
    clip_eq_zero inputs rule4 h4 y, clip_eq_zero inputs rule5 h5 y]
  simp

/-- If all five rules fire with strength zero, the computation for
`numero_pecas` fails with the zero-area error. -/
theorem computeNP_error_of_strengths (te fu nf : ℚ)
    (h1 : fireStrength (inputsOf te fu nf) rule1 = 0)
    (h2 : fireStrength (inputsOf te fu nf) rule2 = 0)
    (h3 : fireStrength (inputsOf te fu nf) rule3 = 0)
    (h4 : fireStrength (inputsOf te fu nf) rule4 = 0)
    (h5 : fireStrength (inputsOf te fu nf) rule5 = 0) :
    computeNumeroPecas te fu nf = Except.error ComputationError.zeroArea := by
  unfold computeNumeroPecas computeVar
  rw [defuzzify_error_iff]
  have hmap : nUniverse.map (aggregate systemRules .numero_pecas
      (inputsOf te fu nf)) = nUniverse.map (fun _ => (0 : ℚ)) :=
    List.map_congr_left (fun y _ =>
      aggregate_numeroPecas_zero (inputsOf te fu nf) h1 h2 h3 h4 h5 y)
  rw [hmap, sum_map_zero_fn]

/-- If some rule fires with positive strength and its consequent term
reaches degree 1 at a grid point, the computation for `numero_pecas`
succeeds (no zero-area error). -/
theorem computeNP_ne_error_of_strength_pos (te fu nf : ℚ) (r : Rule)
    (hr : r ∈ systemRules) (y0 : ℚ) (hy0 : y0 ∈ nUniverse)
    (hterm : r.consequentMF.evaluate y0 = 1)
    (hpos : 0 < fireStrength (inputsOf te fu nf) r) :
    computeNumeroPecas te fu nf ≠
      Except.error ComputationError.zeroArea := by
  unfold computeNumeroPecas computeVar
  rw [Ne, defuzzify_error_iff]
  intro hsum
  have hclip : clip (inputsOf te fu nf) r y0 =
      fireStrength (inputsOf te fu nf) r :=
    clip_eq_fireStrength _ r y0 hterm
  have hmem : clip (inputsOf te fu nf) r y0 ∈
      ((systemRules.filter fun r => r.consequentVar == VarName.numero_pecas).map
        fun r => clip (inputsOf te fu nf) r y0) := by
    rw [filter_systemRules]
    exact List.mem_map_of_mem _ hr
  have hagg : 0 < aggregate systemRules .numero_pecas
      (inputsOf te fu nf) y0 := by
    have hle := le_foldr_max _ _ hmem
    unfold aggregate
    calc (0 : ℚ) < fireStrength (inputsOf te fu nf) r := hpos
    _ = clip (inputsOf te fu nf) r y0 := hclip.symm
    _ ≤ _ := hle
  have hpossum : 0 < (nUniverse.map (aggregate systemRules .numero_pecas
      (inputsOf te fu nf))).sum := by
    refine sum_pos_of_mem _ ?_ _ (List.mem_map_of_mem _ hy0) hagg
    intro b hb
    rcases List.mem_map.mp hb with ⟨y, _, rfl⟩
    exact aggregate_nonneg _ _ _ y
  rw [hsum] at hpossum
  exact lt_irrefl 0 hpossum

/-- Summing a function of the form `mu ∘ cast` over an integer grid equals
the scaled integer sum of its hundredths profile. -/
theorem sum_map_cast_comp (l : List ℕ) (mu : ℚ → ℚ) (f : ℕ → ℕ)
    (h : ∀ i : ℕ, mu ((i : ℕ) : ℚ) = (f i : ℚ) / 100) :
    ((l.map (fun i : ℕ => (i : ℚ))).map mu).sum = ((l.map f).sum : ℚ) / 100 := by
  induction l with
  | nil => simp
  | cons a t ih =>
      simp only [List.map_cons, List.sum_cons, ih, h a]
      push_cast
      ring

/-- The membership sum over the `numero_pecas` universe, through a
hundredths profile. -/
theorem nUniverse_sum_profile (mu : ℚ → ℚ) (f : ℕ → ℕ)
    (h : ∀ i : ℕ, mu ((i : ℕ) : ℚ) = (f i : ℚ) / 100) :
    (nUniverse.map mu).sum = (((List.range 501).map f).sum : ℚ) / 100 := by
  rw [nUniverse]
  exact sum_map_cast_comp (List.range 501) mu f h

/-- Centroid defuzzification over the `numero_pecas` universe, evaluated
through a hundredths profile with integer numerator and denominator. -/
theorem defuzzify_nUniverse_eval (mu : ℚ → ℚ) (f : ℕ → ℕ)
    (h : ∀ i : ℕ, mu ((i : ℕ) : ℚ) = (f i : ℚ) / 100) (N D : ℕ)
    (hD : ((List.range 501).map f).sum = D)
    (hN : ((List.range 501).map (fun i => i * f i)).sum = N)
    (hD0 : D ≠ 0) :
    defuzzify nUniverse mu = Except.ok ((N : ℚ) / (D : ℚ)) := by
  have hden : (nUniverse.map mu).sum = (D : ℚ) / 100 := by
    rw [nUniverse_sum_profile mu f h, hD]
  have hnum : (nUniverse.map fun y => y * mu y).sum = (N : ℚ) / 100 := by
    have h' : ∀ i : ℕ, ((i : ℕ) : ℚ) * mu ((i : ℕ) : ℚ) =
        ((i * f i : ℕ) : ℚ) / 100 := by
      intro i
      rw [h i]
      push_cast
      ring
    rw [nUniverse_sum_profile (fun y => y * mu y) (fun i => i * f i) h', hN]
  have hDq : (D : ℚ) ≠ 0 := Nat.cast_ne_zero.mpr hD0
  have hne : (nUniverse.map mu).sum ≠ 0 := by
    rw [hden]
    exact div_ne_zero hDq (by norm_num)
  rw [defuzzify_ok nUniverse mu hne, hnum, hden]
  exact congrArg Except.ok (by field_simp)

/-- On the integer grid, `trapmf 350 450 500 500` is the hundredths profile
`scenMu`. -/
theorem trapmf_grid_profile (i : ℕ) :
    trapmf 350 450 500 500 (i : ℚ) = (scenMu i : ℚ) / 100 := by
  unfold trapmf trimf scenMu
  by_cases h1 : i ≤ 350
  · rcases Nat.lt_or_ge i 350 with hlt | hge
    · have hx : (i : ℚ) < 350 := by exact_mod_cast hlt
      rw [if_pos (Or.inl hx), if_pos h1]
      norm_num
    · have hi : i = 350 := le_antisymm h1 hge
      subst hi
      norm_num
  · push_neg at h1
    have hx1 : (350 : ℚ) < (i : ℚ) := by exact_mod_cast h1
    rw [if_neg (by omega : ¬ i ≤ 350)]
    by_cases h2 : i ≤ 450
    · have hx2 : (i : ℚ) ≤ 450 := by exact_mod_cast h2
      rw [if_pos h2, if_neg (not_or.mpr ⟨by linarith, by linarith⟩),
        if_pos hx2]
      rcases Nat.lt_or_ge i 450 with hlt | hge
      · have hxlt : (i : ℚ) < 450 := by exact_mod_cast hlt
        rw [if_neg (by linarith : ¬ (i : ℚ) = 450), if_pos ⟨hx1, hxlt⟩]
        have hc : ((i - 350 : ℕ) : ℚ) = (i : ℚ) - 350 := by
          have : (350 : ℕ) ≤ i := by omega
          push_cast [this]
          ring
        rw [hc]
        norm_num
      · have hi : i = 450 := le_antisymm h2 hge
        subst hi
        norm_num
    · push_neg at h2
      have hx2 : (450 : ℚ) < (i : ℚ) := by exact_mod_cast h2
      rw [if_neg (by omega : ¬ i ≤ 450)]
      by_cases h3 : i ≤ 500
      · have hx3 : (i : ℚ) ≤ 500 := by exact_mod_cast h3
        rw [if_pos h3, if_neg (not_or.mpr ⟨by linarith, by linarith⟩),
          if_neg (by linarith : ¬ (i : ℚ) ≤ 450)]
        rcases Nat.lt_or_ge i 500 with hlt | hge
        · have hxlt : (i : ℚ) < 500 := by exact_mod_cast hlt
          rw [if_neg (by linarith : ¬ (500 : ℚ) ≤ (i : ℚ))]
          norm_num
        · have hi : i = 500 := le_antisymm h3 hge
          subst hi
          norm_num
      · push_neg at h3
        have hx3 : (500 : ℚ) < (i : ℚ) := by exact_mod_cast h3
        rw [if_neg (by omega : ¬ i ≤ 500), if_pos (Or.inr hx3)]
        norm_num

/-- On the integer grid, `trimf 50 150 250` is the hundredths profile
`triMu`. -/
theorem trimf_grid_profile (i : ℕ) :
    trimf 50 150 250 (i : ℚ) = (triMu i : ℚ) / 100 := by
  unfold trimf triMu
  by_cases h1 : i ≤ 50
  · have hx : (i : ℚ) ≤ 50 := by exact_mod_cast h1
    rw [if_pos h1, if_neg (by rintro h; rw [h] at hx; norm_num at hx),
      if_neg (by rintro ⟨ha, hb⟩; linarith),
      if_neg (by rintro ⟨ha, hb⟩; linarith)]
    norm_num
  · push_neg at h1
    have hx1 : (50 : ℚ) < (i : ℚ) := by exact_mod_cast h1
    rw [if_neg (by omega : ¬ i ≤ 50)]
    by_cases h2 : i ≤ 150
    · rw [if_pos h2]
      rcases Nat.lt_or_ge i 150 with hlt | hge
      · have hxlt : (i : ℚ) < 150 := by exact_mod_cast hlt
        rw [if_neg (by linarith : ¬ (i : ℚ) = 150), if_pos ⟨hx1, hxlt⟩]
        have hc : ((i - 50 : ℕ) : ℚ) = (i : ℚ) - 50 := by
          have : (50 : ℕ) ≤ i := by omega
          push_cast [this]
          ring
        rw [hc]
        norm_num
      · have hi : i = 150 := le_antisymm h2 hge
        subst hi
        norm_num
    · push_neg at h2
      have hx2 : (150 : ℚ) < (i : ℚ) := by exact_mod_cast h2
      rw [if_neg (by omega : ¬ i ≤ 150)]
      by_cases h3 : i < 250
      · have hx3 : (i : ℚ) < 250 := by exact_mod_cast h3
        rw [if_pos h3, if_neg (by linarith : ¬ (i : ℚ) = 150),
          if_neg (by rintro ⟨ha, hb⟩; linarith), if_pos ⟨hx2, hx3⟩]
        have hc : ((250 - i : ℕ) : ℚ) = 250 - (i : ℚ) := by
          have : i ≤ (250 : ℕ) := by omega
          push_cast [this]
          ring
        rw [hc]
        norm_num
      · push_neg at h3
        have hx3 : (250 : ℚ) ≤ (i : ℚ) := by exact_mod_cast h3
        rw [if_neg (by omega : ¬ i < 250),
          if_neg (by linarith : ¬ (i : ℚ) = 150),
          if_neg (by rintro ⟨ha, hb⟩; linarith),
          if_neg (by rintro ⟨ha, hb⟩; linarith)]
        norm_num

set_option maxRecDepth 100000 in
/-- Total membership (in hundredths) of the `scenMu` profile over the
grid. -/
theorem scenMu_den_sum : ((List.range 501).map scenMu).sum = 10050 := by
  decide

set_option maxRecDepth 100000 in
/-- Weighted membership (in hundredths) of the `scenMu` profile over the
grid. -/
theorem scenMu_num_sum :
    ((List.range 501).map (fun i => i * scenMu i)).sum = 4483350 := by
  decide

set_option maxRecDepth 100000 in
/-- Total membership (in hundredths) of the `triMu` profile over the
grid. -/
theorem triMu_den_sum : ((List.range 501).map triMu).sum = 10000 := by
  decide

set_option maxRecDepth 100000 in
/-- Weighted membership (in hundredths) of the `triMu` profile over the
grid. -/
theorem triMu_num_sum :
    ((List.range 501).map (fun i => i * triMu i)).sum = 1500000 := by
  decide

/-- Scenario 1 inputs fire the single rule at full strength. -/
theorem scenario_fire_5_10 :
    fireStrength (scenarioInputs 5 10) scenarioRule = 1 := by
  norm_num [fireStrength, scenarioRule, AntecedentExpression.strength,
    scenarioInputs, MF.evaluate, waitVerySmall, staffSmall, trapmf, trimf]

/-- Scenario 1: the aggregated `parts` set at inputs `(5, 10)` is exactly
the unmodified consequent trapezoid. -/
theorem scenario_aggregate_5_10 (y : ℚ) :
    aggregate [scenarioRule] VarName.parts (scenarioInputs 5 10) y =
      trapmf 350 450 500 500 y := by
  show max (clip (scenarioInputs 5 10) scenarioRule y) 0 = _
  rw [max_eq_left (clip_nonneg _ _ y)]
  unfold clip
  rw [scenario_fire_5_10]
  exact min_eq_right (trapmf_le_one 350 450 500 500 y)

/-- Scenario 1 computed output: the discrete centroid of the clipped
`very_large` trapezoid is `89667/201 ≈ 446.1`. -/
theorem scenario_compute_5_10 :
    scenarioComputeParts 5 10 = Except.ok (89667 / 201) := by
  unfold scenarioComputeParts computeVar
  have hmu : ∀ i : ℕ,
      aggregate [scenarioRule] VarName.parts (scenarioInputs 5 10)
        ((i : ℕ) : ℚ) = (scenMu i : ℚ) / 100 := by
    intro i
    rw [scenario_aggregate_5_10, trapmf_grid_profile]
  have hparts : partsUniverse = nUniverse := rfl
  rw [hparts, defuzzify_nUniverse_eval _ scenMu hmu 4483350 10050
    scenMu_den_sum scenMu_num_sum (by norm_num)]
  exact congrArg Except.ok (by norm_num)

/-- Scenario 2 inputs `(60, 50)` fire the single rule at strength zero. -/
theorem scenario_fire_60_50 :
    fireStrength (scenarioInputs 60 50) scenarioRule = 0 := by
  norm_num [fireStrength, scenarioRule, AntecedentExpression.strength,
    scenarioInputs, MF.evaluate, waitVerySmall, staffSmall, trapmf, trimf]

/-- Scenario 2 fails: with inputs `(60, 50)` the aggregated set is zero
everywhere, so `compute` reports the zero-area error. -/
theorem scenario_compute_60_50 :
    scenarioComputeParts 60 50 =
      Except.error ComputationError.zeroArea := by
  unfold scenarioComputeParts computeVar
  rw [defuzzify_error_iff]
  have hagg : ∀ y : ℚ,
      aggregate [scenarioRule] VarName.parts (scenarioInputs 60 50) y = 0 := by
    intro y
    show max (clip (scenarioInputs 60 50) scenarioRule y) 0 = 0
    rw [clip_eq_zero _ _ scenario_fire_60_50 y, max_self]
  have hmap : partsUniverse.map
      (aggregate [scenarioRule] VarName.parts (scenarioInputs 60 50)) =
      partsUniverse.map (fun _ => (0 : ℚ)) :=
    List.map_congr_left (fun y _ => hagg y)
  rw [hmap, sum_map_zero_fn]

/-- At inputs `(60, 0.5, 50)` every one of the five rules fires with
strength zero. -/
theorem strengths_60_half_50 :
    fireStrength (inputsOf 60 (1/2) 50) rule1 = 0 ∧
    fireStrength (inputsOf 60 (1/2) 50) rule2 = 0 ∧
    fireStrength (inputsOf 60 (1/2) 50) rule3 = 0 ∧
    fireStrength (inputsOf 60 (1/2) 50) rule4 = 0 ∧
    fireStrength (inputsOf 60 (1/2) 50) rule5 = 0 := by
  refine ⟨?_, ?_, ?_, ?_, ?_⟩ <;>
    norm_num [fireStrength, rule1, rule2, rule3, rule4, rule5,
      AntecedentExpression.strength, inputsOf, MF.evaluate, m_muito_pequeno,
      m_pequeno, m_grande, p_baixo, p_alto, s_pequeno, s_grande,
      trapmf, trimf]

/-- At inputs `(60, 0.5, 50)` the computation for `numero_pecas` fails. -/
theorem compute_60_half_50 :
    computeNumeroPecas 60 (1/2) 50 =
      Except.error ComputationError.zeroArea := by
  obtain ⟨h1, h2, h3, h4, h5⟩ := strengths_60_half_50
  exact computeNP_error_of_strengths 60 (1/2) 50 h1 h2 h3 h4 h5

/-- At inputs `(150, 0.1, 10)` only `rule3` fires (at full strength). -/
theorem strengths_150_tenth_10 :
    fireStrength (inputsOf 150 (1/10) 10) rule1 = 0 ∧
    fireStrength (inputsOf 150 (1/10) 10) rule2 = 0 ∧
    fireStrength (inputsOf 150 (1/10) 10) rule3 = 1 ∧
    fireStrength (inputsOf 150 (1/10) 10) rule4 = 0 ∧
    fireStrength (inputsOf 150 (1/10) 10) rule5 = 0 := by
  refine ⟨?_, ?_, ?_, ?_, ?_⟩ <;>
    norm_num [fireStrength, rule1, rule2, rule3, rule4, rule5,
      AntecedentExpression.strength, inputsOf, MF.evaluate, m_muito_pequeno,
      m_pequeno, m_grande, p_baixo, p_alto, s_pequeno, s_grande,
      trapmf, trimf]

/-- At inputs `(150, 0.1, 10)` the aggregated `numero_pecas` set is exactly
the unmodified `pequeno` triangle. -/
theorem aggregate_150_tenth_10 (y : ℚ) :
    aggregate systemRules VarName.numero_pecas (inputsOf 150 (1/10) 10) y =
      trimf 50 150 250 y := by
  obtain ⟨h1, h2, h3, h4, h5⟩ := strengths_150_tenth_10
  have ht : (0 : ℚ) ≤ trimf 50 150 250 y := trimf_nonneg 50 150 250 y
  have hc3 : clip (inputsOf 150 (1/10) 10) rule3 y = trimf 50 150 250 y := by
    unfold clip
    rw [h3]
    exact min_eq_right (trimf_le_one 50 150 250 y)
  rw [aggregate_numeroPecas_eq, clip_eq_zero _ rule1 h1 y,
    clip_eq_zero _ rule2 h2 y, clip_eq_zero _ rule4 h4 y,
    clip_eq_zero _ rule5 h5 y, hc3, max_self, max_eq_right ht,
    max_eq_left ht, max_eq_left ht]

/-- At inputs `(150, 0.1, 10)` — waiting time far beyond its universe —
the computation still succeeds, with crisp output exactly 150. -/
theorem compute_150_tenth_10 :
    computeNumeroPecas 150 (1/10) 10 = Except.ok 150 := by
  unfold computeNumeroPecas computeVar
  have hmu : ∀ i : ℕ,
      aggregate systemRules VarName.numero_pecas (inputsOf 150 (1/10) 10)
        ((i : ℕ) : ℚ) = (triMu i : ℚ) / 100 := by
    intro i
    rw [aggregate_150_tenth_10, trimf_grid_profile]
  rw [defuzzify_nUniverse_eval _ triMu hmu 1500000 10000
    triMu_den_sum triMu_num_sum (by norm_num)]
  exact congrArg Except.ok (by norm_num)

/-- Every integer grid point below 501 lies in the `numero_pecas`
universe. -/
theorem natCast_mem_nUniverse (i : ℕ) (h0 : i ∈ List.range 501) :
    ((i : ℕ) : ℚ) ∈ nUniverse := by
  rw [nUniverse]
  exact List.mem_map_of_mem (fun i : ℕ => (i : ℚ)) h0

/-- The computation for `numero_pecas` fails exactly when all five rules
fire with strength zero. -/
theorem computeNP_error_iff (te fu nf : ℚ) :
    computeNumeroPecas te fu nf = Except.error ComputationError.zeroArea ↔
      (fireStrength (inputsOf te fu nf) rule1 = 0 ∧
       fireStrength (inputsOf te fu nf) rule2 = 0 ∧
       fireStrength (inputsOf te fu nf) rule3 = 0 ∧
       fireStrength (inputsOf te fu nf) rule4 = 0 ∧
       fireStrength (inputsOf te fu nf) rule5 = 0) := by
  constructor
  · intro herr
    have h450 : ((450 : ℕ) : ℚ) ∈ nUniverse :=
      natCast_mem_nUniverse 450 (List.mem_range.mpr (by norm_num))
    have h150 : ((150 : ℕ) : ℚ) ∈ nUniverse :=
      natCast_mem_nUniverse 150 (List.mem_range.mpr (by norm_num))
    have h400 : ((400 : ℕ) : ℚ) ∈ nUniverse :=
      natCast_mem_nUniverse 400 (List.mem_range.mpr (by norm_num))
    refine ⟨?_, ?_, ?_, ?_, ?_⟩
    · by_contra hne
      exact computeNP_ne_error_of_strength_pos te fu nf rule1
        (by unfold systemRules; exact List.mem_cons_self _ _) _ h450
        (by norm_num [rule1, MF.evaluate, n_muito_grande, trapmf, trimf])
        (lt_of_le_of_ne (fireStrength_nonneg _ _) (Ne.symm hne)) herr
    · by_contra hne
      exact computeNP_ne_error_of_strength_pos te fu nf rule2
        (by unfold systemRules
            exact List.mem_cons_of_mem _ (List.mem_cons_self _ _)) _ h150
        (by norm_num [rule2, MF.evaluate, n_pequeno, trimf])
        (lt_of_le_of_ne (fireStrength_nonneg _ _) (Ne.symm hne)) herr
    · by_contra hne
      exact computeNP_ne_error_of_strength_pos te fu nf rule3
        (by unfold systemRules
            exact List.mem_cons_of_mem _ (List.mem_cons_of_mem _
              (List.mem_cons_self _ _))) _ h150
        (by norm_num [rule3, MF.evaluate, n_pequeno, trimf])
        (lt_of_le_of_ne (fireStrength_nonneg _ _) (Ne.symm hne)) herr
    · by_contra hne
      exact computeNP_ne_error_of_strength_pos te fu nf rule4
        (by unfold systemRules
            exact List.mem_cons_of_mem _ (List.mem_cons_of_mem _
              (List.mem_cons_of_mem _ (List.mem_cons_self _ _)))) _ h400
        (by norm_num [rule4, MF.evaluate, n_grande, trimf])
        (lt_of_le_of_ne (fireStrength_nonneg _ _) (Ne.symm hne)) herr
    · by_contra hne
      exact computeNP_ne_error_of_strength_pos te fu nf rule5
        (by unfold systemRules
            exact List.mem_cons_of_mem _ (List.mem_cons_of_mem _
              (List.mem_cons_of_mem _ (List.mem_cons_of_mem _
                (List.mem_cons_self _ _))))) _ h450
        (by norm_num [rule5, MF.evaluate, n_muito_grande, trapmf, trimf])
        (lt_of_le_of_ne (fireStrength_nonneg _ _) (Ne.symm hne)) herr
  · rintro ⟨h1, h2, h3, h4, h5⟩
    exact computeNP_error_of_strengths te fu nf h1 h2 h3 h4 h5

/-- C1 (as stated, refuted): the end-to-end scenario does fuzzify both
antecedent terms to 1, fire at strength 1 and leave the consequent
unclipped, but the discrete centroid of `trapezoid(350, 450, 500, 500)`
over the grid `0..500` is `89667/201 ≈ 446.1`, more than 16 away from the
spec's claimed `462.5`. -/
theorem c1_centroid_counterexample :
    scenarioComputeParts 5 10 = Except.ok (89667 / 201) ∧
    |(89667 : ℚ) / 201 - 925 / 2| > 16 ∧ (89667 : ℚ) / 201 ≠ 925 / 2 :=
  ⟨scenario_compute_5_10,
   by rw [abs_of_neg (by norm_num)]; norm_num, by norm_num⟩

/-- C1 (amended): with inputs `wait = 5`, `staff = 10`, both antecedent
terms fuzzify to degree 1, the rule fires at strength 1, the clipped output
set is the consequent term unmodified, and the centroid-defuzzified crisp
output is exactly `89667/201 ≈ 446.1` on the discretized universe. -/
theorem c1_scenario_end_to_end :
    MF.evaluate waitVerySmall 5 = 1 ∧ MF.evaluate staffSmall 10 = 1 ∧
    fireStrength (scenarioInputs 5 10) scenarioRule = 1 ∧
    (∀ y : ℚ, clip (scenarioInputs 5 10) scenarioRule y =
      MF.evaluate partsVeryLarge y) ∧
    scenarioComputeParts 5 10 = Except.ok (89667 / 201) ∧
    |(89667 : ℚ) / 201 - 4461 / 10| < 1 / 100 := by
  refine ⟨?_, ?_, scenario_fire_5_10, ?_, scenario_compute_5_10,
    by rw [abs_of_pos (by norm_num)]; norm_num⟩
  · norm_num [MF.evaluate, waitVerySmall, trapmf, trimf]
  · norm_num [MF.evaluate, staffSmall, trapmf, trimf]
  · intro y
    unfold clip
    rw [scenario_fire_5_10]
    exact min_eq_right (trapmf_le_one 350 450 500 500 y)

/-- C2: `compute` raises the `ComputationError` for `numero_pecas` exactly
when the aggregated fuzzy set sums to zero over the discretized universe,
equivalently exactly when all five rules fire with strength zero; and in
the spec's scenario 2 (`wait = 60`, `staff = 50`) the computation fails
with the error rather than returning a number. -/
theorem c2_computation_error_iff :
    (∀ te fu nf : ℚ,
      (computeNumeroPecas te fu nf =
          Except.error ComputationError.zeroArea ↔
        (nUniverse.map (aggregate systemRules VarName.numero_pecas
          (inputsOf te fu nf))).sum = 0) ∧
      (computeNumeroPecas te fu nf =
          Except.error ComputationError.zeroArea ↔
        (fireStrength (inputsOf te fu nf) rule1 = 0 ∧
         fireStrength (inputsOf te fu nf) rule2 = 0 ∧
         fireStrength (inputsOf te fu nf) rule3 = 0 ∧
         fireStrength (inputsOf te fu nf) rule4 = 0 ∧
         fireStrength (inputsOf te fu nf) rule5 = 0))) ∧
    scenarioComputeParts 60 50 = Except.error ComputationError.zeroArea := by
  refine ⟨fun te fu nf => ⟨?_, computeNP_error_iff te fu nf⟩,
    scenario_compute_60_50⟩
  exact defuzzify_error_iff nUniverse
    (aggregate systemRules VarName.numero_pecas (inputsOf te fu nf))

/-- C3: for every rule, every input binding and every point, the clipped
output set is the pointwise minimum of the clamped firing strength
(antecedent strength times weight, clamped to `[0, 1]`) and the consequent
term — Mamdani clipping; at `fator_utilizacao = 0.3` and `y = 100`, `rule3`
clips to `1/2` while scaling would give `1/4`, so clipping is not
scaling. -/
theorem c3_mamdani_clipping :
    (∀ (r : Rule) (inputs : VarName → ℚ) (y : ℚ),
      clip inputs r y =
        min (min 1 (max 0 (r.antecedent.strength inputs * r.weight)))
          (r.consequentMF.evaluate y)) ∧
    clip (inputsOf 0 (3/10) 0) rule3 100 = 1 / 2 ∧
    fireStrength (inputsOf 0 (3/10) 0) rule3 *
      MF.evaluate rule3.consequentMF 100 = 1 / 4 := by
  refine ⟨fun r inputs y => rfl, ?_, ?_⟩
  · norm_num [clip, fireStrength, rule3, AntecedentExpression.strength,
      inputsOf, MF.evaluate, p_baixo, n_pequeno, trapmf, trimf]
  · norm_num [fireStrength, rule3, AntecedentExpression.strength,
      inputsOf, MF.evaluate, p_baixo, n_pequeno, trapmf, trimf]

/-- C4: for every input binding, the aggregated set for `numero_pecas` at
every point is the pointwise maximum of the five rules' clipped output
sets, and all five rules — concluding the mixed labels `muito_grande`,
`pequeno`, `grande` — target that one output variable. -/
theorem c4_aggregation_pointwise_max :
    (∀ (inputs : VarName → ℚ) (y : ℚ),
      aggregate systemRules VarName.numero_pecas inputs y =
        max (max (max (max (clip inputs rule1 y) (clip inputs rule2 y))
          (clip inputs rule3 y)) (clip inputs rule4 y))
          (clip inputs rule5 y)) ∧
    rule1.consequentVar = VarName.numero_pecas ∧
    rule2.consequentVar = VarName.numero_pecas ∧
    rule3.consequentVar = VarName.numero_pecas ∧
    rule4.consequentVar = VarName.numero_pecas ∧
    rule5.consequentVar = VarName.numero_pecas ∧
    rule1.consequentMF = n_muito_grande ∧ rule2.consequentMF = n_pequeno ∧
    rule4.consequentMF = n_grande :=
  ⟨aggregate_numeroPecas_eq, rfl, rfl, rfl, rfl, rfl, rfl, rfl, rfl⟩

/-- C5: the strength of a conjunction is the minimum of the operand
strengths and the strength of a disjunction is the maximum; conjunction is
Mamdani minimum and not the product, as `rule1`'s antecedent at
`tempo_espera = 20`, `numero_funcionarios = 30` shows (`min = 1/2`,
product `= 1/4`). -/
theorem c5_and_min_or_max :
    (∀ (inputs : VarName → ℚ) (l r : AntecedentExpression),
      (AntecedentExpression.and l r).strength inputs =
        min (l.strength inputs) (r.strength inputs) ∧
      (AntecedentExpression.or l r).strength inputs =
        max (l.strength inputs) (r.strength inputs)) ∧
    rule1.antecedent.strength (inputsOf 20 0 30) = 1 / 2 ∧
    MF.evaluate m_muito_pequeno 20 * MF.evaluate s_pequeno 30 = 1 / 4 := by
  refine ⟨fun inputs l r => ⟨rfl, rfl⟩, ?_, ?_⟩
  · norm_num [rule1, AntecedentExpression.strength, inputsOf, MF.evaluate,
      m_muito_pequeno, s_pequeno, trapmf, trimf]
  · norm_num [MF.evaluate, m_muito_pequeno, s_pequeno, trapmf, trimf]

/-- C6: every membership function of the system evaluates into `[0, 1]` at
every rational point, and evaluates to zero strictly outside its support
interval; evaluation is a total function. -/
theorem c6_membership_bounds :
    ∀ mf ∈ systemMFs, ∀ x : ℚ,
      (0 ≤ mf.evaluate x ∧ mf.evaluate x ≤ 1) ∧
      ((x < mf.supportLo ∨ mf.supportHi < x) → mf.evaluate x = 0) := by
  intro mf hmf x
  refine ⟨mf_evaluate_mem mf x, ?_⟩
  fin_cases hmf <;> intro h <;>
    first
      | exact trapmf_eq_zero_outside _ _ _ _ x h
      | exact trimf_eq_zero_outside _ _ _ x (by norm_num) (by norm_num) h

/-- C6 witness: the first system term at the concrete point `x = 200`,
outside its support. -/
theorem c6_membership_bounds_witness :
    MF.evaluate m_muito_pequeno 200 = 0 ∧
    0 ≤ MF.evaluate m_muito_pequeno 200 := by
  have h := c6_membership_bounds m_muito_pequeno
    (by unfold systemMFs; exact List.mem_cons_self _ _) 200
  exact ⟨h.2 (Or.inr (by norm_num [m_muito_pequeno, MF.supportHi])), h.1.1⟩

/-- C7: inputs beyond the `tempo_espera` universe bound 120 are not
rejected — they give degree zero to every `tempo_espera` term — and
`compute` proceeds normally: at `(150, 0.1, 10)` it succeeds with crisp
output 150 driven by the remaining `fator_utilizacao` rule. -/
theorem c7_out_of_range_inputs :
    (∀ x : ℚ, 120 < x →
      MF.evaluate m_muito_pequeno x = 0 ∧ MF.evaluate m_pequeno x = 0 ∧
      MF.evaluate m_medio x = 0 ∧ MF.evaluate m_grande x = 0) ∧
    computeNumeroPecas 150 (1/10) 10 = Except.ok 150 := by
  refine ⟨fun x hx => ⟨?_, ?_, ?_, ?_⟩, compute_150_tenth_10⟩
  · exact trapmf_eq_zero_outside _ _ _ _ x (Or.inr (by linarith))
  · exact trimf_eq_zero_outside _ _ _ x (by norm_num) (by norm_num)
      (Or.inr (by linarith))
  · exact trimf_eq_zero_outside _ _ _ x (by norm_num) (by norm_num)
      (Or.inr (by linarith))
  · exact trapmf_eq_zero_outside _ _ _ _ x (Or.inr (by linarith))

/-- C7 witness: the out-of-range input 150 itself. -/
theorem c7_out_of_range_inputs_witness :
    MF.evaluate m_grande 150 = 0 ∧ MF.evaluate m_muito_pequeno 150 = 0 := by
  have h := c7_out_of_range_inputs.1 150 (by norm_num)
  exact ⟨h.2.2.2, h.1⟩

/-- C8: each degenerate membership function of the system (equal adjacent
breakpoints `c = d`) evaluates totally, into `[0, 1]`, takes the value 1 at
the degenerate breakpoint itself and the value 0 strictly beyond it — a
step, with no division by a zero-width ramp. -/
theorem c8_degenerate_steps :
    ∀ mf ∈ degenerateStepMFs, ∀ x : ℚ,
      (0 ≤ mf.evaluate x ∧ mf.evaluate x ≤ 1) ∧
      mf.evaluate mf.supportHi = 1 ∧
      (mf.supportHi < x → mf.evaluate x = 0) := by
  intro mf hmf x
  fin_cases hmf <;>
    exact ⟨mf_evaluate_mem _ x,
      by norm_num [MF.evaluate, MF.supportHi, m_grande, p_alto, s_grande,
        n_muito_grande, trapmf, trimf],
      fun h => trapmf_eq_zero_outside _ _ _ _ x (Or.inr h)⟩

/-- C8 witness: `m['grande'] = trapezoid(80, 100, 120, 120)` at its
degenerate breakpoint 120 and at `x = 130` beyond it. -/
theorem c8_degenerate_steps_witness :
    MF.evaluate m_grande (MF.supportHi m_grande) = 1 ∧
    MF.evaluate m_grande 130 = 0 ∧ 0 ≤ MF.evaluate m_grande 130 := by
  have h := c8_degenerate_steps m_grande
    (by unfold degenerateStepMFs; exact List.mem_cons_self _ _) 130
  exact ⟨h.2.1, h.2.2 (by norm_num [m_grande, MF.supportHi]), h.1.1⟩

/-- C9: at the in-range slider inputs `(60, 0.5, 50)` every one of the five
rules fires with strength zero although the unused `medio` terms all sit at
degree 1 there, so `compute` fails, `safe_compute` returns `false`, the
simulation output is absent — and the unguarded final chart read of
`sim.output["numero_pecas"]` therefore fails instead of rendering. -/
theorem c9_unguarded_chart_read :
    fireStrength (inputsOf 60 (1/2) 50) rule1 = 0 ∧
    fireStrength (inputsOf 60 (1/2) 50) rule2 = 0 ∧
    fireStrength (inputsOf 60 (1/2) 50) rule3 = 0 ∧
    fireStrength (inputsOf 60 (1/2) 50) rule4 = 0 ∧
    fireStrength (inputsOf 60 (1/2) 50) rule5 = 0 ∧
    MF.evaluate m_medio 60 = 1 ∧ MF.evaluate p_medio (1/2) = 1 ∧
    MF.evaluate s_medio 50 = 1 ∧
    computeNumeroPecas 60 (1/2) 50 =
      Except.error ComputationError.zeroArea ∧
    safeCompute 60 (1/2) 50 = false ∧
    simOutputNumeroPecas 60 (1/2) 50 = none ∧
    chartOutputRead (simOutputNumeroPecas 60 (1/2) 50) =
      Except.error ComputationError.zeroArea := by
  obtain ⟨h1, h2, h3, h4, h5⟩ := strengths_60_half_50
  refine ⟨h1, h2, h3, h4, h5, ?_, ?_, ?_, compute_60_half_50, ?_, ?_, ?_⟩
  · norm_num [MF.evaluate, m_medio, trimf]
  · norm_num [MF.evaluate, p_medio, trimf]
  · norm_num [MF.evaluate, s_medio, trimf]
  · unfold safeCompute
    rw [compute_60_half_50]
  · unfold simOutputNumeroPecas
    rw [compute_60_half_50]
    rfl
  · unfold chartOutputRead simOutputNumeroPecas
    rw [compute_60_half_50]
    rfl

/-- C10: the firing strengths of `rule3` and `rule4`, whose antecedents
reference only `fator_utilizacao`, are identical across any two input
bindings that agree on `fator_utilizacao`, whatever the other two
inputs. -/
theorem c10_utilization_rules_noninterference :
    ∀ (te fu nf te2 nf2 : ℚ),
      fireStrength (inputsOf te fu nf) rule3 =
        fireStrength (inputsOf te2 fu nf2) rule3 ∧
      fireStrength (inputsOf te fu nf) rule4 =
        fireStrength (inputsOf te2 fu nf2) rule4 :=
  fun _ _ _ _ _ => ⟨rfl, rfl⟩
